import Mathlib

/-!
Shallow embedding of the `MessageRetriever` class of `src/azure_rag_demo.py`.

Time is modelled as `Int` seconds; `timedelta(hours = h)` is `h * 3600`
seconds and `timedelta(minutes = m)` is `m * 60` seconds.  Each call to
`datetime.now()` during one invocation of `get_latest_messages` is a reading
of a `clock : Nat → Int`: reading `0` is the one taken for the cutoff at the
start of the call, and reading `i + 1` is the one observed by the `i`-th
registered producer when it is invoked (the built-in producers read the
clock once per record literal; those readings are microseconds apart, so
each producer is modelled as seeing a single instant).

A producer is a function from its invocation instant to the list of records
it returns.  Python's in-place `list.sort(key = lambda x: x["timestamp"],
reverse = True)` is a stable descending sort by timestamp; it is modelled by
the stable insertion sort `sortDesc`.  Python exception flow for producers
that raise is modelled separately with `Except`-valued producers
(`collectMessagesE`): the `for` loop has no `try/except`, so a raise in
`source_func()` propagates out of the whole call, which is the `Except`
bind.
-/

namespace AzureRagDemo

/-- A message record, with the five fields built in `azure_rag_demo.py`. -/
structure Message where
  title : String
  content : String
  timestamp : Int
  source : String
  category : String
deriving DecidableEq, Repr

/-- A data source: a producer of records, as a function of the instant at
which it is invoked (it timestamps its records relative to that instant). -/
abbrev Producer := Int → List Message

/-- A data source whose producer may raise: a raised Python exception is
modelled by `Except.error` carrying the exception message. -/
abbrev ProducerE := Int → Except String (List Message)

/-- The filter applied to one record inside the loop of
`get_latest_messages`: `msg["timestamp"] >= cutoff_time` and then
`categories is None or msg["category"] in categories`. -/
def keepMsg (cutoff : Int) (categories : Option (List String)) (msg : Message) : Bool :=
  if cutoff ≤ msg.timestamp then
    match categories with
    | none => true
    | some cats => cats.contains msg.category
  else
    false

/-- Insert a record into a list already sorted by timestamp descending,
keeping it in front of records with the same timestamp (stability: the
inserted record comes from earlier in the pre-sort order). -/
def insertDesc (m : Message) : List Message → List Message
  | [] => [m]
  | x :: xs => if x.timestamp ≤ m.timestamp then m :: x :: xs else x :: insertDesc m xs

/-- Stable sort by timestamp descending: the model of
`all_messages.sort(key = lambda x: x["timestamp"], reverse = True)`. -/
def sortDesc : List Message → List Message
  | [] => []
  | x :: xs => insertDesc x (sortDesc xs)

/-- The state of a `MessageRetriever`: its `self.data_sources` dict,
as the insertion-ordered association list of (source name, producer). -/
structure MessageRetriever where
  data_sources : List (String × Producer)

/-- A `MessageRetriever` whose producers may raise. -/
structure MessageRetrieverE where
  data_sources : List (String × ProducerE)

/-- The source-iteration loop of `get_latest_messages`: walk the registry
in order; the producer at position `j` of the remaining list is invoked at
clock reading `i + j`; its records passing `keepMsg` are appended. -/
def collectMessages (cutoff : Int) (categories : Option (List String))
    (clock : Nat → Int) : Nat → List (String × Producer) → List Message
  | _, [] => []
  | i, (_, source_func) :: rest =>
      (source_func (clock i)).filter (keepMsg cutoff categories)
        ++ collectMessages cutoff categories clock (i + 1) rest

/-- The same loop with Python exception semantics: `messages = source_func()`
may raise, there is no `try/except`, so the first raising producer aborts
the remaining iterations and the whole call. -/
def collectMessagesE (cutoff : Int) (categories : Option (List String))
    (clock : Nat → Int) : Nat → List (String × ProducerE) → Except String (List Message)
  | _, [] => Except.ok []
  | i, (_, source_func) :: rest => do
      let messages ← source_func (clock i)
      let tail ← collectMessagesE cutoff categories clock (i + 1) rest
      pure (messages.filter (keepMsg cutoff categories) ++ tail)

/-- `MessageRetriever.get_latest_messages(hours_back, categories)`.
The cutoff `datetime.now() - timedelta(hours = hours_back)` is computed once
at clock reading `0`; producers are then invoked in registry order at
readings `1, 2, ...`; retained records are sorted newest first.  The method
is modelled as a state transformer: it returns the result list together
with the object state after the call (the body never assigns to `self`). -/
def MessageRetriever.get_latest_messages (self : MessageRetriever) (clock : Nat → Int)
    (hours_back : Int) (categories : Option (List String)) :
    List Message × MessageRetriever :=
  let cutoff_time := clock 0 - hours_back * 3600
  let all_messages := collectMessages cutoff_time categories clock 1 self.data_sources
  (sortDesc all_messages, self)

/-- `get_latest_messages` over producers that may raise: the result is the
sorted retained list when every invoked producer returns, and the first
raised exception otherwise. -/
def MessageRetrieverE.get_latest_messages (self : MessageRetrieverE) (clock : Nat → Int)
    (hours_back : Int) (categories : Option (List String)) :
    Except String (List Message) :=
  let cutoff_time := clock 0 - hours_back * 3600
  (collectMessagesE cutoff_time categories clock 1 self.data_sources).map sortDesc

/-- `MessageRetriever._get_latest_news`, invoked at instant `t`. -/
def _get_latest_news : Producer := fun t =>
  [ { title := "人工智能技术突破",
      content := "最新的AI模型在多个基准测试中创下新纪录，显示出强大的推理能力。",
      timestamp := t - 2 * 3600,
      source := "tech_news",
      category := "technology" },
    { title := "云计算市场增长",
      content := "2024年云计算市场预计将增长25%，主要驱动力来自AI和数据分析需求。",
      timestamp := t - 1 * 3600,
      source := "business_news",
      category := "business" } ]

/-- `MessageRetriever._get_company_updates`, invoked at instant `t`. -/
def _get_company_updates : Producer := fun t =>
  [ { title := "新产品发布",
      content := "公司将于下月发布基于AI的新一代客户服务平台，预计将提高效率30%。",
      timestamp := t - 3 * 3600,
      source := "internal",
      category := "product" } ]

/-- `MessageRetriever._get_market_data`, invoked at instant `t`. -/
def _get_market_data : Producer := fun t =>
  [ { title := "股市动态",
      content := "科技股今日上涨2.5%，AI相关公司表现突出。投资者对新技术前景保持乐观。",
      timestamp := t - 30 * 60,
      source := "market_feed",
      category := "finance" } ]

/-- `MessageRetriever._get_user_messages`, invoked at instant `t`. -/
def _get_user_messages : Producer := fun t =>
  [ { title := "用户反馈",
      content := "用户反映新版本界面更加友好，但希望增加更多自定义选项。",
      timestamp := t - 4 * 3600,
      source := "user_feedback",
      category := "feedback" } ]

/-- `MessageRetriever.__init__`: the registry populated with the four
built-in producers, in dict insertion order. -/
def MessageRetriever.init : MessageRetriever :=
  { data_sources :=
      [ ("news", _get_latest_news),
        ("company_updates", _get_company_updates),
        ("market_data", _get_market_data),
        ("user_messages", _get_user_messages) ] }

/-- The built-in registry with its (never-raising) producers viewed as
fallible producers. -/
def MessageRetrieverE.init : MessageRetrieverE :=
  { data_sources :=
      [ ("news", fun t => Except.ok (_get_latest_news t)),
        ("company_updates", fun t => Except.ok (_get_company_updates t)),
        ("market_data", fun t => Except.ok (_get_market_data t)),
        ("user_messages", fun t => Except.ok (_get_user_messages t)) ] }

/-- Scenario fixture (spec §8 concrete scenario): source A yields one record
timestamped 2 hours before its invocation instant, category technology. -/
def sourceA : Producer := fun t =>
  [ { title := "A", content := "a", timestamp := t - 2 * 3600,
      source := "A", category := "technology" } ]

/-- Scenario fixture (spec §8 concrete scenario): source B yields one record
timestamped 30 hours before its invocation instant, category finance. -/
def sourceB : Producer := fun t =>
  [ { title := "B", content := "b", timestamp := t - 30 * 3600,
      source := "B", category := "finance" } ]

/-- Scenario fixture: the two-source registry of the spec's concrete
scenario. -/
def scenarioRetriever : MessageRetriever :=
  { data_sources := [("A", sourceA), ("B", sourceB)] }

/-- Fixture for the producer-failure claim: a registry whose single
producer raises. -/
def failingRetriever : MessageRetrieverE :=
  { data_sources := [("boom", fun _ => Except.error "boom")] }

/-- The descending-timestamp order used by the sort. -/
abbrev tsGE (a b : Message) : Prop := b.timestamp ≤ a.timestamp

theorem mem_insertDesc {m x : Message} {l : List Message} :
    m ∈ insertDesc x l ↔ m = x ∨ m ∈ l := by
  induction l with
  | nil => simp [insertDesc]
  | cons y ys ih =>
      by_cases h : y.timestamp ≤ x.timestamp
      · simp [insertDesc, h]
      · simp [insertDesc, h, ih]
        tauto

theorem mem_sortDesc {m : Message} {l : List Message} :
    m ∈ sortDesc l ↔ m ∈ l := by
  induction l with
  | nil => simp [sortDesc]
  | cons x xs ih => simp [sortDesc, mem_insertDesc, ih]

theorem pairwise_insertDesc {x : Message} {l : List Message}
    (hl : l.Pairwise tsGE) : (insertDesc x l).Pairwise tsGE := by
  induction l with
  | nil => simp [insertDesc, tsGE]
  | cons y ys ih =>
      rcases List.pairwise_cons.mp hl with ⟨hy, hys⟩
      by_cases h : y.timestamp ≤ x.timestamp
      · rw [insertDesc, if_pos h]
        refine List.pairwise_cons.mpr ⟨?_, hl⟩
        intro b hb
        rcases List.mem_cons.mp hb with rfl | hb
        · exact h
        · exact le_trans (hy b hb) h
      · rw [insertDesc, if_neg h]
        refine List.pairwise_cons.mpr ⟨?_, ih hys⟩
        intro b hb
        rcases mem_insertDesc.mp hb with rfl | hb
        · exact le_of_not_le h
        · exact hy b hb

theorem pairwise_sortDesc (l : List Message) : (sortDesc l).Pairwise tsGE := by
  induction l with
  | nil => simp [sortDesc]
  | cons x xs ih => exact pairwise_insertDesc ih

theorem keepMsg_eq_true_iff {cutoff : Int} {categories : Option (List String)}
    {msg : Message} :
    keepMsg cutoff categories msg = true ↔
      cutoff ≤ msg.timestamp ∧
        (categories = none ∨ ∃ cats, categories = some cats ∧ msg.category ∈ cats) := by
  rcases categories with _ | cats
  · by_cases h : cutoff ≤ msg.timestamp <;> simp [keepMsg, h]
  · by_cases h : cutoff ≤ msg.timestamp <;>
      simp [keepMsg, h, List.contains, List.elem_iff]

theorem mem_collectMessages {cutoff : Int} {categories : Option (List String)}
    {clock : Nat → Int} {m : Message} :
    ∀ {i : Nat} {srcs : List (String × Producer)},
      (m ∈ collectMessages cutoff categories clock i srcs ↔
        ∃ (j : Nat) (name : String) (f : Producer),
          srcs.get? j = some (name, f) ∧ m ∈ f (clock (i + j)) ∧
            keepMsg cutoff categories m = true) := by
  intro i srcs
  induction srcs generalizing i with
  | nil => simp [collectMessages]
  | cons s rest ih =>
      rw [collectMessages, List.mem_append, List.mem_filter, ih]
      constructor
      · rintro (⟨hm, hk⟩ | ⟨j, name, f, hget, hm, hk⟩)
        · exact ⟨0, s.1, s.2, by simp, by simpa using hm, hk⟩
        · refine ⟨j + 1, name, f, by simpa using hget, ?_, hk⟩
          have hidx : i + (j + 1) = i + 1 + j := by omega
          rw [hidx]
          exact hm
      · rintro ⟨j, name, f, hget, hm, hk⟩
        cases j with
        | zero =>
            obtain rfl : s = (name, f) := by simpa using hget
            exact Or.inl ⟨by simpa using hm, hk⟩
        | succ j =>
            refine Or.inr ⟨j, name, f, by simpa using hget, ?_, hk⟩
            have hidx : i + 1 + j = i + (j + 1) := by omega
            rw [hidx]
            exact hm

theorem get_latest_messages_fst (self : MessageRetriever) (clock : Nat → Int)
    (hours_back : Int) (categories : Option (List String)) :
    (self.get_latest_messages clock hours_back categories).1 =
      sortDesc (collectMessages (clock 0 - hours_back * 3600) categories clock 1
        self.data_sources) := rfl

theorem init_producer_ts_bound (j : Nat) (name : String) (f : Producer)
    (hget : MessageRetriever.init.data_sources.get? j = some (name, f))
    (t : Int) (m : Message) (hm : m ∈ f t) :
    m.timestamp ≤ t - 1800 := by
  rcases j with _ | _ | _ | _ | j
  · obtain ⟨-, rfl⟩ : "news" = name ∧ _get_latest_news = f := by
      simpa [MessageRetriever.init] using hget
    simp only [_get_latest_news, List.mem_cons, List.not_mem_nil, or_false] at hm
    rcases hm with rfl | rfl
    · show t - 2 * 3600 ≤ t - 1800
      omega
    · show t - 1 * 3600 ≤ t - 1800
      omega
  · obtain ⟨-, rfl⟩ : "company_updates" = name ∧ _get_company_updates = f := by
      simpa [MessageRetriever.init] using hget
    simp only [_get_company_updates, List.mem_cons, List.not_mem_nil, or_false] at hm
    rcases hm with rfl
    show t - 3 * 3600 ≤ t - 1800
    omega
  · obtain ⟨-, rfl⟩ : "market_data" = name ∧ _get_market_data = f := by
      simpa [MessageRetriever.init] using hget
    simp only [_get_market_data, List.mem_cons, List.not_mem_nil, or_false] at hm
    rcases hm with rfl
    show t - 30 * 60 ≤ t - 1800
    omega
  · obtain ⟨-, rfl⟩ : "user_messages" = name ∧ _get_user_messages = f := by
      simpa [MessageRetriever.init] using hget
    simp only [_get_user_messages, List.mem_cons, List.not_mem_nil, or_false] at hm
    rcases hm with rfl
    show t - 4 * 3600 ≤ t - 1800
    omega
  · simp [MessageRetriever.init] at hget

theorem init_empty_of_nonpos (clock : Nat → Int) (hours_back : Int)
    (categories : Option (List String)) (hh : hours_back ≤ 0)
    (hclock : ∀ i, clock i < clock 0 + 1800) :
    (MessageRetriever.init.get_latest_messages clock hours_back categories).1 = [] := by
  rw [get_latest_messages_fst, List.eq_nil_iff_forall_not_mem]
  intro m hm
  rw [mem_sortDesc, mem_collectMessages] at hm
  obtain ⟨j, name, f, hget, hmem, hk⟩ := hm
  have hts := (keepMsg_eq_true_iff.mp hk).1
  have hbound := init_producer_ts_bound j name f hget (clock (1 + j)) m hmem
  have hcj := hclock (1 + j)
  omega

theorem initE_eq_ok (clock : Nat → Int) (hours_back : Int)
    (categories : Option (List String)) :
    MessageRetrieverE.init.get_latest_messages clock hours_back categories =
      Except.ok ((MessageRetriever.init.get_latest_messages clock hours_back categories).1) := rfl

theorem collectMessagesE_error_of_fail {cutoff : Int} {categories : Option (List String)}
    {clock : Nat → Int} :
    ∀ {i : Nat} {srcs : List (String × ProducerE)} (j : Nat) (name : String) (f : ProducerE)
      (e : String),
      srcs.get? j = some (name, f) →
      f (clock (i + j)) = Except.error e →
      ∃ err, collectMessagesE cutoff categories clock i srcs = Except.error err := by
  intro i srcs
  induction srcs generalizing i with
  | nil => intro j name f e hget _; simp at hget
  | cons s rest ih =>
      intro j name f e hget hfail
      cases j with
      | zero =>
          obtain rfl : s = (name, f) := by simpa using hget
          refine ⟨e, ?_⟩
          rw [collectMessagesE]
          have hfail0 : f (clock i) = Except.error e := by simpa using hfail
          show (f (clock i)).bind _ = Except.error e
          rw [hfail0]
          rfl
      | succ j =>
          cases hsf : s.2 (clock i) with
          | error e2 =>
              refine ⟨e2, ?_⟩
              rw [collectMessagesE]
              show (s.2 (clock i)).bind _ = Except.error e2
              rw [hsf]
              rfl
          | ok msgs =>
              have hidx : i + (j + 1) = i + 1 + j := by omega
              obtain ⟨err, herr⟩ := ih j name f e (by simpa using hget) (by rw [← hidx]; exact hfail)
              refine ⟨err, ?_⟩
              rw [collectMessagesE]
              show (s.2 (clock i)).bind _ = Except.error err
              rw [hsf]
              show (collectMessagesE cutoff categories clock (i + 1) rest).bind _ = Except.error err
              rw [herr]
              rfl

/-- C1: every record returned by `get_latest_messages` has
`timestamp >= now - hours_back`, where the cutoff `clock 0 - hours_back * 3600`
is computed from the single clock reading taken at the start of the call;
and the comparison is inclusive: a record produced by a registered source
whose timestamp equals the cutoff exactly (and which passes the category
filter) is included in the result. -/
theorem getLatestMessages_cutoff_inclusive (self : MessageRetriever) (clock : Nat → Int)
    (hours_back : Int) (categories : Option (List String)) :
    (∀ m ∈ (self.get_latest_messages clock hours_back categories).1,
        clock 0 - hours_back * 3600 ≤ m.timestamp) ∧
      (∀ (j : Nat) (name : String) (f : Producer) (m : Message),
        self.data_sources.get? j = some (name, f) →
        m ∈ f (clock (1 + j)) →
        m.timestamp = clock 0 - hours_back * 3600 →
        (categories = none ∨ ∃ cats, categories = some cats ∧ m.category ∈ cats) →
        m ∈ (self.get_latest_messages clock hours_back categories).1) := by
  constructor
  · intro m hm
    rw [get_latest_messages_fst, mem_sortDesc, mem_collectMessages] at hm
    obtain ⟨j, name, f, hget, hmem, hk⟩ := hm
    exact (keepMsg_eq_true_iff.mp hk).1
  · intro j name f m hget hmem hts hcat
    rw [get_latest_messages_fst, mem_sortDesc, mem_collectMessages]
    exact ⟨j, name, f, hget, hmem, keepMsg_eq_true_iff.mpr ⟨le_of_eq hts.symm, hcat⟩⟩

/-- C1 witness: at instant 86400 with `hours_back = 4`, the built-in feedback
record sits exactly on the cutoff 72000 and is included, and its timestamp is
at or after the cutoff. -/
theorem getLatestMessages_cutoff_inclusive_witness :
    ({ title := "用户反馈", content := "用户反映新版本界面更加友好，但希望增加更多自定义选项。",
       timestamp := 72000, source := "user_feedback", category := "feedback" } : Message) ∈
      (MessageRetriever.init.get_latest_messages (fun _ => 86400) 4 none).1 ∧
      (86400 : Int) - 4 * 3600 ≤ 72000 := by
  have hmem := (getLatestMessages_cutoff_inclusive MessageRetriever.init (fun _ => 86400) 4
      none).2 3 "user_messages" _get_user_messages
      { title := "用户反馈", content := "用户反映新版本界面更加友好，但希望增加更多自定义选项。",
        timestamp := 72000, source := "user_feedback", category := "feedback" }
      rfl (by decide) (by decide) (Or.inl rfl)
  exact ⟨hmem, (getLatestMessages_cutoff_inclusive MessageRetriever.init (fun _ => 86400) 4
    none).1 _ hmem⟩

/-- C2: the sequence returned by `get_latest_messages` is sorted by timestamp
in non-increasing (newest-first) order: every pair of records in result order
satisfies `a.timestamp >= b.timestamp`. -/
theorem getLatestMessages_sorted (self : MessageRetriever) (clock : Nat → Int)
    (hours_back : Int) (categories : Option (List String)) :
    ((self.get_latest_messages clock hours_back categories).1).Pairwise
      (fun a b => b.timestamp ≤ a.timestamp) := by
  rw [get_latest_messages_fst]
  exact pairwise_sortDesc _

/-- C3: a record is in the result of `get_latest_messages` iff some registered
source produced it and its timestamp is at or after the cutoff and (the
category filter is absent or its category is a member of the filter). -/
theorem getLatestMessages_retention_iff (self : MessageRetriever) (clock : Nat → Int)
    (hours_back : Int) (categories : Option (List String)) (m : Message) :
    m ∈ (self.get_latest_messages clock hours_back categories).1 ↔
      ∃ (j : Nat) (name : String) (f : Producer),
        self.data_sources.get? j = some (name, f) ∧ m ∈ f (clock (1 + j)) ∧
          clock 0 - hours_back * 3600 ≤ m.timestamp ∧
          (categories = none ∨ ∃ cats, categories = some cats ∧ m.category ∈ cats) := by
  rw [get_latest_messages_fst, mem_sortDesc, mem_collectMessages]
  constructor
  · rintro ⟨j, name, f, hget, hmem, hk⟩
    obtain ⟨h1, h2⟩ := keepMsg_eq_true_iff.mp hk
    exact ⟨j, name, f, hget, hmem, h1, h2⟩
  · rintro ⟨j, name, f, hget, hmem, h1, h2⟩
    exact ⟨j, name, f, hget, hmem, keepMsg_eq_true_iff.mpr ⟨h1, h2⟩⟩

/-- C4 counterexample: at `hours_back = 0` (not a positive integer) the call
does not fail with any error: it returns the result `Except.ok []`.  The code
performs no validation of `hours_back`. -/
theorem getLatestMessages_zero_hours_returns_ok :
    MessageRetrieverE.init.get_latest_messages (fun _ => 0) 0 none = Except.ok [] := rfl

/-- C4 amended: for every `hours_back <= 0` the operation does not fail with
an `InvalidArgument` error; it returns normally, and with the built-in
registry the returned result is the empty list (clock readings during one
call drift by less than the 30-minute age of the youngest record). -/
theorem getLatestMessages_nonpos_hours_no_error (clock : Nat → Int) (hours_back : Int)
    (categories : Option (List String)) (hh : hours_back ≤ 0)
    (hclock : ∀ i, clock i < clock 0 + 1800) :
    MessageRetrieverE.init.get_latest_messages clock hours_back categories = Except.ok [] := by
  rw [initE_eq_ok, init_empty_of_nonpos clock hours_back categories hh hclock]

/-- C4 amended witness: `hours_back = -5` with a constant clock returns
`Except.ok []`. -/
theorem getLatestMessages_nonpos_hours_no_error_witness :
    MessageRetrieverE.init.get_latest_messages (fun _ => 0) (-5) none = Except.ok [] :=
  getLatestMessages_nonpos_hours_no_error (fun _ => 0) (-5) none (by norm_num)
    (fun i => by norm_num)

/-- C5: on the two-source registry where source A yields one technology record
2 hours old and source B one finance record 30 hours old,
`get_latest_messages(hours_back = 24)` returns exactly the technology record,
and `get_latest_messages(hours_back = 48)` returns both records, technology
first. -/
theorem scenario_two_sources (now : Int) :
    (scenarioRetriever.get_latest_messages (fun _ => now) 24 none).1 =
      [ { title := "A", content := "a", timestamp := now - 7200,
          source := "A", category := "technology" } ] ∧
      (scenarioRetriever.get_latest_messages (fun _ => now) 48 none).1 =
        [ { title := "A", content := "a", timestamp := now - 7200,
            source := "A", category := "technology" },
          { title := "B", content := "b", timestamp := now - 108000,
            source := "B", category := "finance" } ] := by
  constructor <;>
    simp [MessageRetriever.get_latest_messages, scenarioRetriever, collectMessages,
      sourceA, sourceB, keepMsg, sortDesc, insertDesc, List.filter,
      show ∀ a b : Int, (now ≤ now - a + b) ↔ a ≤ b from fun a b => by omega,
      show ∀ a b : Int, (now - a ≤ now - b) ↔ b ≤ a from fun a b => by omega]

/-- C6: two back-to-back calls with the same arguments at the same instant
(all clock readings agree, the registry — hence each deterministic producer —
is unchanged) return the same record sequence. -/
theorem getLatestMessages_deterministic (self : MessageRetriever)
    (clock1 clock2 : Nat → Int) (hours_back : Int) (categories : Option (List String))
    (hclock : ∀ i, clock1 i = clock2 i) :
    self.get_latest_messages clock1 hours_back categories =
      self.get_latest_messages clock2 hours_back categories := by
  have h : clock1 = clock2 := funext hclock
  rw [h]

/-- C6 witness: two calls on the built-in registry whose clocks agree reading
by reading give the same result. -/
theorem getLatestMessages_deterministic_witness :
    MessageRetriever.init.get_latest_messages (fun _ => 5) 24 none =
      MessageRetriever.init.get_latest_messages (fun _ => 2 + 3) 24 none :=
  getLatestMessages_deterministic MessageRetriever.init (fun _ => 5) (fun _ => 2 + 3) 24 none
    (fun i => by norm_num)

/-- C7: if any registered producer raises during the call, the whole
aggregation is aborted: the call evaluates to a propagated error and no
(partial) result list is returned. -/
theorem getLatestMessagesE_aborts_on_failure (self : MessageRetrieverE) (clock : Nat → Int)
    (hours_back : Int) (categories : Option (List String))
    (j : Nat) (name : String) (f : ProducerE) (e : String)
    (hget : self.data_sources.get? j = some (name, f))
    (hfail : f (clock (1 + j)) = Except.error e) :
    (∃ err, self.get_latest_messages clock hours_back categories = Except.error err) ∧
      ∀ l, self.get_latest_messages clock hours_back categories ≠ Except.ok l := by
  obtain ⟨err, herr⟩ := collectMessagesE_error_of_fail j name f e hget hfail
  have hres : self.get_latest_messages clock hours_back categories = Except.error err := by
    show ((collectMessagesE _ _ _ 1 self.data_sources).map sortDesc) = _
    rw [herr]
    rfl
  refine ⟨⟨err, hres⟩, ?_⟩
  intro l hl
  rw [hres] at hl
  cases hl

/-- C7 witness: a registry whose single producer raises yields an error and
never an `ok` result. -/
theorem getLatestMessagesE_aborts_on_failure_witness :
    (∃ err, failingRetriever.get_latest_messages (fun _ => 0) 24 none = Except.error err) ∧
      ∀ l, failingRetriever.get_latest_messages (fun _ => 0) 24 none ≠ Except.ok l :=
  getLatestMessagesE_aborts_on_failure failingRetriever (fun _ => 0) 24 none
    0 "boom" (fun _ => Except.error "boom") "boom" rfl rfl

/-- C8: `get_latest_messages` leaves the object state unchanged: the state
after the call is the state before it, and in particular the source registry
maps the same names to the same producers. -/
theorem getLatestMessages_registry_unchanged (self : MessageRetriever) (clock : Nat → Int)
    (hours_back : Int) (categories : Option (List String)) :
    (self.get_latest_messages clock hours_back categories).2 = self ∧
      ((self.get_latest_messages clock hours_back categories).2).data_sources =
        self.data_sources :=
  ⟨rfl, rfl⟩

/-- C9: with the four built-in producers and the arguments `hours_back = 24`,
`categories = none` (the Python defaults), the call at any instant returns
exactly five records, ordered: finance (30 minutes old), business (1 hour),
technology (2 hours), product (3 hours), feedback (4 hours). -/
theorem init_default_window_result (now : Int) :
    (MessageRetriever.init.get_latest_messages (fun _ => now) 24 none).1 =
      [ { title := "股市动态",
          content := "科技股今日上涨2.5%，AI相关公司表现突出。投资者对新技术前景保持乐观。",
          timestamp := now - 1800, source := "market_feed", category := "finance" },
        { title := "云计算市场增长",
          content := "2024年云计算市场预计将增长25%，主要驱动力来自AI和数据分析需求。",
          timestamp := now - 3600, source := "business_news", category := "business" },
        { title := "人工智能技术突破",
          content := "最新的AI模型在多个基准测试中创下新纪录，显示出强大的推理能力。",
          timestamp := now - 7200, source := "tech_news", category := "technology" },
        { title := "新产品发布",
          content := "公司将于下月发布基于AI的新一代客户服务平台，预计将提高效率30%。",
          timestamp := now - 10800, source := "internal", category := "product" },
        { title := "用户反馈",
          content := "用户反映新版本界面更加友好，但希望增加更多自定义选项。",
          timestamp := now - 14400, source := "user_feedback", category := "feedback" } ] := by
  simp [MessageRetriever.get_latest_messages, MessageRetriever.init, collectMessages,
    _get_latest_news, _get_company_updates, _get_market_data, _get_user_messages,
    keepMsg, sortDesc, insertDesc, List.filter,
    show ∀ a b : Int, (now ≤ now - a + b) ↔ a ≤ b from fun a b => by omega,
    show ∀ a b : Int, (now - a ≤ now - b) ↔ b ≤ a from fun a b => by omega]

/-- C10: for every `hours_back <= 0` and any category filter the call raises
no error — the code performs no input validation — and since the cutoff then
lies at or after the initial clock reading while every built-in record is
timestamped at least 30 minutes before its producer's reading, the call
returns the empty list (clock drift during the call below 30 minutes). -/
theorem getLatestMessages_no_validation_empty (clock : Nat → Int) (hours_back : Int)
    (categories : Option (List String)) (hh : hours_back ≤ 0)
    (hclock : ∀ i, clock i < clock 0 + 1800) :
    (MessageRetriever.init.get_latest_messages clock hours_back categories).1 = [] ∧
      MessageRetrieverE.init.get_latest_messages clock hours_back categories =
        Except.ok [] := by
  have h := init_empty_of_nonpos clock hours_back categories hh hclock
  exact ⟨h, by rw [initE_eq_ok, h]⟩

/-- C10 witness: `hours_back = 0` with a category filter returns the empty
list and no error. -/
theorem getLatestMessages_no_validation_empty_witness :
    (MessageRetriever.init.get_latest_messages (fun _ => 1000) 0 (some ["technology"])).1 = [] ∧
      MessageRetrieverE.init.get_latest_messages (fun _ => 1000) 0 (some ["technology"]) =
        Except.ok [] :=
  getLatestMessages_no_validation_empty (fun _ => 1000) 0 (some ["technology"]) le_rfl
    (fun i => by norm_num)

end AzureRagDemo
